import Mathlib

/-!
Shallow embedding of `src/cluster.py` (class `SimpleDeliveryClusterer` and `main`).

The geocoding service (`geopy` / Nominatim) is external: each lookup attempt is
modelled by an oracle `ℕ → AttemptResult` giving the outcome of attempt `i` for
one address, and `random.uniform(0, 1)` by a jitter function `ℕ → ℚ`.  The
KMeans clusterer (`sklearn`) is external as well: it is modelled by an abstract
family `ℕ → List (ℚ × ℚ) → ℤ → List ℕ` taking the seed (`random_state`), the
coordinate list and `n_clusters` to a list of cluster labels, one per point.
Coordinates are modelled as rationals; none of the claims depend on float
arithmetic, only on how `cluster.py` moves the values around.
-/

/-- Outcome of one call `self.geolocator.geocode(address)` inside the retry
loop of `geocode_address`: a truthy location with its coordinates, a falsy
(`None`) result, a raised `GeocoderTimedOut`, or any other raised exception. -/
inductive AttemptResult where
  | success (lat lon : ℚ)
  | notFound
  | timeout
  | otherError
deriving DecidableEq, Repr

/-- The dict returned by `geocode_address` on success:
`{"location": address, "stopover": True, "coords": (lat, lon)}`. -/
structure GeocodedPoint where
  location : String
  stopover : Bool
  coords : ℚ × ℚ
deriving DecidableEq, Repr

/-- Observable outcome of one `geocode_address` call: the returned value
(`none` models Python `None`), the number of geocode attempts actually made,
and the list of backoff wait times slept between attempts (the fixed
`time.sleep(1)` rate-limit sleep before each attempt is not recorded). -/
structure GeoOutcome where
  result : Option GeocodedPoint
  attempts : ℕ
  waits : List ℚ
deriving DecidableEq, Repr

/-- `retries = 3` in `geocode_address`. -/
def retries : ℕ := 3

/-- The retry loop `for i in range(retries)` of `geocode_address`, from loop
index `i` with `fuel` iterations remaining (`fuel = retries - i` at entry).
Falling off the end of the loop returns `None` (line 36 of `cluster.py`). -/
def geocodeFrom (address : String) (oracle : ℕ → AttemptResult) (jitter : ℕ → ℚ) :
    ℕ → ℕ → GeoOutcome
  | _, 0 => ⟨none, 0, []⟩
  | i, fuel + 1 =>
    match oracle i with
    | .success lat lon => ⟨some ⟨address, true, (lat, lon)⟩, 1, []⟩
    | .notFound =>
      let rest := geocodeFrom address oracle jitter (i + 1) fuel
      ⟨rest.result, rest.attempts + 1, rest.waits⟩
    | .timeout =>
      if i < retries - 1 then
        let rest := geocodeFrom address oracle jitter (i + 1) fuel
        ⟨rest.result, rest.attempts + 1, (2 ^ i + jitter i) :: rest.waits⟩
      else ⟨none, 1, []⟩
    | .otherError => ⟨none, 1, []⟩

/-- `geocode_address` of `cluster.py` (lines 15–36). -/
def geocode_address (address : String) (oracle : ℕ → AttemptResult) (jitter : ℕ → ℚ) :
    GeoOutcome :=
  geocodeFrom address oracle jitter 0 retries

/-- The geocoding loop of `cluster_addresses` (lines 41–45), keeping only the
successes, in input order.  `k` is the position of the current address in the
original input list; each occurrence gets its own oracle `oracles k` and jitter
`jitters k`, so duplicate address strings are geocoded independently. -/
def locationDataFrom (oracles : ℕ → ℕ → AttemptResult) (jitters : ℕ → ℕ → ℚ) :
    ℕ → List String → List GeocodedPoint
  | _, [] => []
  | k, address :: rest =>
    match (geocode_address address (oracles k) (jitters k)).result with
    | some p => p :: locationDataFrom oracles jitters (k + 1) rest
    | none => locationDataFrom oracles jitters (k + 1) rest

/-- The `location_data` list built by `cluster_addresses`. -/
def locationData (addresses : List String) (oracles : ℕ → ℕ → AttemptResult)
    (jitters : ℕ → ℕ → ℚ) : List GeocodedPoint :=
  locationDataFrom oracles jitters 0 addresses

/-- One entry of a driver's `waypoints` list:
`{"location": ..., "stopover": True}` (lines 65–68). -/
structure Waypoint where
  location : String
  stopover : Bool
deriving DecidableEq, Repr

/-- `driver_id = f"driver_{cluster_id + 1}"` (line 60). -/
def driverId (cluster_id : ℕ) : String :=
  "driver_" ++ toString (cluster_id + 1)

/-- The `driver_routes` dict is modelled as an insertion-ordered association
list from driver id to waypoint list.  `addWaypoint` performs lines 61–68 for
one point: create the entry if the key is absent (appended at the end, as a
Python dict does), then append the waypoint to that entry's list. -/
def addWaypoint : List (String × List Waypoint) → String → Waypoint →
    List (String × List Waypoint)
  | [], d, wp => [(d, [wp])]
  | r :: rest, d, wp =>
    if r.1 = d then (r.1, r.2 ++ [wp]) :: rest
    else r :: addWaypoint rest d wp

/-- One iteration of the grouping loop (lines 59–68): from the pair
`(cluster_id, location_data[i])`, compute the driver id and add the waypoint. -/
def routeStep (routes : List (String × List Waypoint)) (p : ℕ × GeocodedPoint) :
    List (String × List Waypoint) :=
  addWaypoint routes (driverId p.1) ⟨p.2.location, true⟩

/-- The grouping loop of `cluster_addresses` (lines 58–68), over the pairs
`(cluster_id, location_data[i])` in index order, starting from the empty dict. -/
def buildRoutes (pairs : List (ℕ × GeocodedPoint)) : List (String × List Waypoint) :=
  pairs.foldl routeStep []

/-- Dict lookup `driver_routes[d]["waypoints"]` on the modelled dict. -/
def routeLookup (routes : List (String × List Waypoint)) (d : String) :
    Option (List Waypoint) :=
  (routes.find? (fun r => r.1 == d)).map (fun r => r.2)

/-- The waypoints that the grouping loop produces for key `d`: the points whose
cluster id renders to `d`, in input order. -/
def wpsOf (d : String) (pairs : List (ℕ × GeocodedPoint)) : List Waypoint :=
  (pairs.filter (fun p => driverId p.1 == d)).map
    (fun p => (⟨p.2.location, true⟩ : Waypoint))

/-- `cluster_addresses` of `cluster.py` (lines 38–70).  `kmeans` models
`KMeans(n_clusters, random_state).fit_predict` as a pure family taking the
seed, the coordinate list and `n_clusters`; the source always passes
`random_state=42`.  `num_drivers` is an arbitrary Python int, hence `ℤ`.
`ValueError` (line 48) is modelled by `Except.error` with the message text. -/
def cluster_addresses (kmeans : ℕ → List (ℚ × ℚ) → ℤ → List ℕ)
    (addresses : List String) (oracles : ℕ → ℕ → AttemptResult)
    (jitters : ℕ → ℕ → ℚ) (num_drivers : ℤ) :
    Except String (List (String × List Waypoint)) :=
  let location_data := locationData addresses oracles jitters
  if (location_data.length : ℤ) < num_drivers then
    .error ("Not enough valid addresses (" ++ toString location_data.length ++
      ") for " ++ toString num_drivers ++ " drivers")
  else
    let coordinates := location_data.map (fun loc => loc.coords)
    let clusters := kmeans 42 coordinates num_drivers
    .ok (buildRoutes (clusters.zip location_data))

/-- The `try` block of `main` (lines 90–100): the output file
`driver_routes.json` is written exactly when `cluster_addresses` returns
normally; on any exception the handler prints and nothing is written.
`some r` models a written file with content `r`; `none` models no file. -/
def main_writes_file (kmeans : ℕ → List (ℚ × ℚ) → ℤ → List ℕ)
    (addresses : List String) (oracles : ℕ → ℕ → AttemptResult)
    (jitters : ℕ → ℕ → ℚ) (num_drivers : ℤ) :
    Option (List (String × List Waypoint)) :=
  match cluster_addresses kmeans addresses oracles jitters num_drivers with
  | .ok r => some r
  | .error _ => none

/-!
Helper development: injectivity of the decimal rendering used by `driverId`,
via an explicit decoder of `Nat.toDigitsCore`.
-/

def digitsOf (n : ℕ) : List Char :=
  if n < 10 then [Nat.digitChar n]
  else digitsOf (n / 10) ++ [Nat.digitChar (n % 10)]
decreasing_by exact Nat.div_lt_self (by omega) (by omega)

theorem toDigitsCore_eq_digitsOf : ∀ (fuel n : ℕ) (ds : List Char), n < fuel →
    Nat.toDigitsCore 10 fuel n ds = digitsOf n ++ ds := by
  intro fuel
  induction fuel with
  | zero => intro n ds h; omega
  | succ f ih =>
    intro n ds h
    rw [Nat.toDigitsCore]
    by_cases h10 : n / 10 = 0
    · simp only [h10, if_pos rfl]
      rw [digitsOf, if_pos (by omega : n < 10), Nat.mod_eq_of_lt (by omega : n < 10)]
      rfl
    · rw [if_neg h10, ih (n / 10) _ (by omega)]
      conv_rhs => rw [digitsOf]
      rw [if_neg (by omega : ¬ n < 10), List.append_assoc]
      rfl

def decodeFrom (a : ℕ) (l : List Char) : ℕ :=
  l.foldl (fun acc c => 10 * acc + (c.toNat - 48)) a

theorem digitChar_decode (m : ℕ) (h : m < 10) : (Nat.digitChar m).toNat - 48 = m := by
  interval_cases m <;> rfl

theorem decodeFrom_digitsOf : ∀ n, decodeFrom 0 (digitsOf n) = n := by
  intro n
  induction n using Nat.strong_induction_on with
  | _ n ih =>
    rw [digitsOf]
    by_cases h : n < 10
    · rw [if_pos h]
      simp [decodeFrom, digitChar_decode n h]
    · rw [if_neg h]
      have hn : n / 10 < n := Nat.div_lt_self (by omega) (by omega)
      unfold decodeFrom
      rw [List.foldl_append]
      have hrec : decodeFrom 0 (digitsOf (n / 10)) = n / 10 := ih _ hn
      unfold decodeFrom at hrec
      rw [hrec]
      simp [digitChar_decode (n % 10) (by omega)]
      omega

theorem digitsOf_injective : Function.Injective digitsOf := by
  intro m n h
  have h2 := congrArg (decodeFrom 0) h
  rwa [decodeFrom_digitsOf, decodeFrom_digitsOf] at h2

theorem nat_repr_injective : Function.Injective Nat.repr := by
  intro m n h
  unfold Nat.repr at h
  rw [Nat.toDigits, Nat.toDigits,
    toDigitsCore_eq_digitsOf _ _ _ (Nat.lt_succ_self m),
    toDigitsCore_eq_digitsOf _ _ _ (Nat.lt_succ_self n)] at h
  exact digitsOf_injective (by simpa [List.asString] using congrArg String.data h)


theorem driverId_injective : Function.Injective driverId := by
  intro c d h
  unfold driverId at h
  have h2 := congrArg String.data h
  simp only [String.data_append] at h2
  have h3 := List.append_cancel_left h2
  have h4 : Nat.repr (c + 1) = Nat.repr (d + 1) := String.ext h3
  have := nat_repr_injective h4
  omega

/-!
Lemmas about `geocode_address` and the geocoding loop.
-/

/-- A dict returned by the retry loop carries the input address and
`stopover = True` (lines 23–27 of `cluster.py`). -/
theorem geocodeFrom_result_some (address : String) (oracle : ℕ → AttemptResult)
    (jitter : ℕ → ℚ) :
    ∀ (fuel i : ℕ) (p : GeocodedPoint),
      (geocodeFrom address oracle jitter i fuel).result = some p →
      p.location = address ∧ p.stopover = true := by
  intro fuel
  induction fuel with
  | zero => intro i p h; simp [geocodeFrom] at h
  | succ f ih =>
    intro i p h
    simp only [geocodeFrom] at h
    cases horacle : oracle i
    case success lat lon =>
      rw [horacle] at h
      simp only [Option.some.injEq] at h
      subst h
      exact ⟨rfl, rfl⟩
    case notFound =>
      rw [horacle] at h
      exact ih (i + 1) p h
    case timeout =>
      rw [horacle] at h
      by_cases hi : i < retries - 1
      · rw [if_pos hi] at h
        exact ih (i + 1) p h
      · rw [if_neg hi] at h
        simp at h
    case otherError =>
      rw [horacle] at h
      simp at h

/-- When every attempt yields a falsy location (`None` from the service), each
loop iteration just falls through, so the loop runs `fuel` attempts and then
returns `None`. -/
theorem geocodeFrom_allNotFound (address : String) (oracle : ℕ → AttemptResult)
    (jitter : ℕ → ℚ) (h : ∀ i, oracle i = .notFound) :
    ∀ (fuel i : ℕ), geocodeFrom address oracle jitter i fuel = ⟨none, fuel, []⟩ := by
  intro fuel
  induction fuel with
  | zero => intro i; rfl
  | succ f ih =>
    intro i
    simp only [geocodeFrom, h i, ih (i + 1)]

/-!
Lemmas about `location_data` (the geocoding loop of `cluster_addresses`).
-/

/-- The locations of the collected successes form a subsequence of the input
address list: successes keep the input's relative order. -/
theorem locationDataFrom_map_location_sublist (oracles : ℕ → ℕ → AttemptResult)
    (jitters : ℕ → ℕ → ℚ) :
    ∀ (addrs : List String) (k : ℕ),
      List.Sublist ((locationDataFrom oracles jitters k addrs).map (fun p => p.location)) addrs := by
  intro addrs
  induction addrs with
  | nil => intro k; simp [locationDataFrom]
  | cons a rest ih =>
    intro k
    rw [locationDataFrom]
    cases hres : (geocode_address a (oracles k) (jitters k)).result with
    | none =>
      exact (ih (k + 1)).cons a
    | some p =>
      have hl := (geocodeFrom_result_some a (oracles k) (jitters k) retries 0 p hres).1
      simp only [List.map_cons, hl]
      exact (ih (k + 1)).cons₂ a

/-- Every collected point is a success of `geocode_address` at its own input
position. -/
theorem locationDataFrom_mem (oracles : ℕ → ℕ → AttemptResult)
    (jitters : ℕ → ℕ → ℚ) :
    ∀ (addrs : List String) (k : ℕ) (p : GeocodedPoint),
      p ∈ locationDataFrom oracles jitters k addrs →
      ∃ i a, (geocode_address a (oracles i) (jitters i)).result = some p := by
  intro addrs
  induction addrs with
  | nil => intro k p h; simp [locationDataFrom] at h
  | cons a rest ih =>
    intro k p h
    rw [locationDataFrom] at h
    revert h
    cases hres : (geocode_address a (oracles k) (jitters k)).result with
    | none =>
      intro h
      exact ih (k + 1) p h
    | some q =>
      intro h
      rcases List.mem_cons.mp h with h1 | h1
      · exact ⟨k, a, by rw [hres, h1]⟩
      · exact ih (k + 1) p h1

/-- The number of collected points is the number of geocode successes among
the (position, address) occurrences, counted with multiplicity. -/
theorem locationDataFrom_length (oracles : ℕ → ℕ → AttemptResult)
    (jitters : ℕ → ℕ → ℚ) :
    ∀ (addrs : List String) (k : ℕ),
      (locationDataFrom oracles jitters k addrs).length =
        (List.enumFrom k addrs).countP
          (fun q => ((geocode_address q.2 (oracles q.1) (jitters q.1)).result).isSome) := by
  intro addrs
  induction addrs with
  | nil => intro k; simp [locationDataFrom]
  | cons a rest ih =>
    intro k
    rw [locationDataFrom, List.enumFrom, List.countP_cons]
    cases hres : (geocode_address a (oracles k) (jitters k)).result with
    | none => simp [hres, ih (k + 1)]
    | some p => simp [hres, ih (k + 1)]

/-!
Lemmas about the modelled dict (`addWaypoint`, `routeStep`, `buildRoutes`).
-/

/-- Adding a waypoint under key `d` appends it to `d`'s list (creating the
entry when absent). -/
theorem routeLookup_addWaypoint_self (rs : List (String × List Waypoint))
    (d : String) (wp : Waypoint) :
    routeLookup (addWaypoint rs d wp) d = some ((routeLookup rs d).getD [] ++ [wp]) := by
  induction rs with
  | nil => simp [addWaypoint, routeLookup]
  | cons r rest ih =>
    by_cases h : r.1 = d
    · simp [addWaypoint, routeLookup, h]
    · simp only [addWaypoint, if_neg h]
      simp only [routeLookup, List.find?_cons, beq_iff_eq, h, if_neg] at ih ⊢
      simp only [show (r.1 == d) = false from beq_eq_false_iff_ne.mpr h]
      exact ih

/-- Adding a waypoint under another key leaves `d`'s entry unchanged. -/
theorem routeLookup_addWaypoint_ne (rs : List (String × List Waypoint))
    (d' d : String) (wp : Waypoint) (h : d' ≠ d) :
    routeLookup (addWaypoint rs d' wp) d = routeLookup rs d := by
  induction rs with
  | nil => simp [addWaypoint, routeLookup, h]
  | cons r rest ih =>
    by_cases hr : r.1 = d'
    · have hrd : r.1 ≠ d := by rw [hr]; exact h
      simp [addWaypoint, routeLookup, hr, hrd,
        show (r.1 == d) = false from beq_eq_false_iff_ne.mpr hrd,
        show (d' == d) = false from beq_eq_false_iff_ne.mpr h]
    · by_cases hd : r.1 = d
      · simp [addWaypoint, routeLookup, hr, hd,
          show ¬ d = d' from fun hh => h hh.symm]
      · simp only [addWaypoint, if_neg hr]
        simp only [routeLookup, List.find?_cons,
          show (r.1 == d) = false from beq_eq_false_iff_ne.mpr hd] at ih ⊢
        exact ih

/-- Running the grouping loop extends an existing entry for `d` by exactly the
waypoints of the points assigned to `d`, in input order. -/
theorem routeLookup_foldl_some (pairs : List (ℕ × GeocodedPoint)) :
    ∀ (acc : List (String × List Waypoint)) (d : String) (ws : List Waypoint),
      routeLookup acc d = some ws →
      routeLookup (pairs.foldl routeStep acc) d = some (ws ++ wpsOf d pairs) := by
  induction pairs with
  | nil => intro acc d ws h; simp [wpsOf, h]
  | cons p rest ih =>
    intro acc d ws h
    rw [List.foldl_cons]
    by_cases hd : driverId p.1 = d
    · have h1 : routeLookup (routeStep acc p) d = some (ws ++ [⟨p.2.location, true⟩]) := by
        unfold routeStep
        rw [hd, routeLookup_addWaypoint_self, h]
        rfl
      rw [ih _ _ _ h1]
      simp [wpsOf, List.filter_cons, hd]
    · have h1 : routeLookup (routeStep acc p) d = some ws := by
        unfold routeStep
        rw [routeLookup_addWaypoint_ne _ _ _ _ hd, h]
      rw [ih _ _ _ h1]
      simp [wpsOf, List.filter_cons, hd]

/-- Running the grouping loop with no existing entry for `d` produces exactly
the waypoints of the points assigned to `d` (and no entry when there are
none). -/
theorem routeLookup_foldl_none (pairs : List (ℕ × GeocodedPoint)) :
    ∀ (acc : List (String × List Waypoint)) (d : String),
      routeLookup acc d = none →
      routeLookup (pairs.foldl routeStep acc) d =
        if wpsOf d pairs = [] then none else some (wpsOf d pairs) := by
  induction pairs with
  | nil => intro acc d h; simp [wpsOf, h]
  | cons p rest ih =>
    intro acc d h
    rw [List.foldl_cons]
    by_cases hd : driverId p.1 = d
    · have h1 : routeLookup (routeStep acc p) d = some [⟨p.2.location, true⟩] := by
        unfold routeStep
        rw [hd, routeLookup_addWaypoint_self, h]
        rfl
      rw [routeLookup_foldl_some rest _ _ _ h1]
      simp [wpsOf, List.filter_cons, hd]
    · have h1 : routeLookup (routeStep acc p) d = none := by
        unfold routeStep
        rw [routeLookup_addWaypoint_ne _ _ _ _ hd, h]
      rw [ih _ _ h1]
      have hfil : List.filter (fun q => driverId q.1 == d) (p :: rest) =
          List.filter (fun q => driverId q.1 == d) rest := by
        rw [List.filter_cons]
        simp [hd]
      simp only [wpsOf, hfil]

/-- Lookup in the dict built by the grouping loop: key `d` is bound exactly
when some point is assigned to it, to the in-order waypoints of its points. -/
theorem routeLookup_buildRoutes (pairs : List (ℕ × GeocodedPoint)) (d : String) :
    routeLookup (buildRoutes pairs) d =
      if wpsOf d pairs = [] then none else some (wpsOf d pairs) :=
  routeLookup_foldl_none pairs [] d rfl

/-- Keys of the dict after `addWaypoint`: the old keys, plus the new one. -/
theorem mem_keys_addWaypoint (rs : List (String × List Waypoint)) (d' d : String)
    (wp : Waypoint) :
    d ∈ (addWaypoint rs d' wp).map (fun r => r.1) ↔
      d ∈ rs.map (fun r => r.1) ∨ d = d' := by
  induction rs with
  | nil => simp [addWaypoint]
  | cons r rest ih =>
    by_cases h : r.1 = d'
    · subst h
      simp [addWaypoint]
      tauto
    · simp [addWaypoint, h, ih]
      tauto

/-- `addWaypoint` keeps the dict's keys distinct. -/
theorem nodup_keys_addWaypoint (rs : List (String × List Waypoint)) (d : String)
    (wp : Waypoint) (h : (rs.map (fun r => r.1)).Nodup) :
    ((addWaypoint rs d wp).map (fun r => r.1)).Nodup := by
  induction rs with
  | nil => simp [addWaypoint]
  | cons r rest ih =>
    simp only [List.map_cons, List.nodup_cons] at h
    by_cases hr : r.1 = d
    · simpa [addWaypoint, hr, List.nodup_cons] using h
    · simp only [addWaypoint, if_neg hr, List.map_cons, List.nodup_cons]
      refine ⟨fun hmem => ?_, ih h.2⟩
      rcases (mem_keys_addWaypoint rest d r.1 wp).mp hmem with h1 | h1
      · exact h.1 h1
      · exact hr h1

/-- `addWaypoint` never creates an empty waypoint list. -/
theorem nonempty_addWaypoint (rs : List (String × List Waypoint)) (d : String)
    (wp : Waypoint) (h : ∀ r ∈ rs, r.2 ≠ []) :
    ∀ r ∈ addWaypoint rs d wp, r.2 ≠ [] := by
  induction rs with
  | nil =>
    intro r hr
    simp [addWaypoint] at hr
    subst hr
    simp
  | cons q rest ih =>
    intro r hr
    by_cases hq : q.1 = d
    · simp only [addWaypoint, if_pos hq] at hr
      rcases List.mem_cons.mp hr with h1 | h1
      · subst h1; simp
      · exact h r (List.mem_cons_of_mem q h1)
    · simp only [addWaypoint, if_neg hq] at hr
      rcases List.mem_cons.mp hr with h1 | h1
      · rw [h1]; exact h q (List.mem_cons_self q rest)
      · exact ih (fun x hx => h x (List.mem_cons_of_mem q hx)) r h1

/-- Keys of the dict built by the grouping loop from `acc`: old keys plus the
driver ids of the assigned cluster ids. -/
theorem mem_keys_foldl (pairs : List (ℕ × GeocodedPoint)) :
    ∀ (acc : List (String × List Waypoint)) (d : String),
      d ∈ (pairs.foldl routeStep acc).map (fun r => r.1) ↔
        d ∈ acc.map (fun r => r.1) ∨ d ∈ pairs.map (fun p => driverId p.1) := by
  induction pairs with
  | nil => intro acc d; simp
  | cons p rest ih =>
    intro acc d
    rw [List.foldl_cons]
    rw [ih (routeStep acc p) d]
    unfold routeStep
    rw [mem_keys_addWaypoint]
    simp
    tauto

/-- The grouping loop keeps the dict's keys distinct. -/
theorem nodup_keys_foldl (pairs : List (ℕ × GeocodedPoint)) :
    ∀ (acc : List (String × List Waypoint)),
      ((acc.map (fun r => r.1)).Nodup) →
      (((pairs.foldl routeStep acc).map (fun r => r.1)).Nodup) := by
  induction pairs with
  | nil => intro acc h; simpa using h
  | cons p rest ih =>
    intro acc h
    rw [List.foldl_cons]
    exact ih _ (nodup_keys_addWaypoint acc (driverId p.1) _ h)

/-- The grouping loop keeps every waypoint list non-empty. -/
theorem nonempty_foldl (pairs : List (ℕ × GeocodedPoint)) :
    ∀ (acc : List (String × List Waypoint)),
      (∀ r ∈ acc, r.2 ≠ []) →
      ∀ r ∈ pairs.foldl routeStep acc, r.2 ≠ [] := by
  induction pairs with
  | nil => intro acc h; simpa using h
  | cons p rest ih =>
    intro acc h
    rw [List.foldl_cons]
    exact ih _ (nonempty_addWaypoint acc (driverId p.1) _ h)

/-- All waypoints of the modelled dict, groups concatenated in key order. -/
def allWaypoints (routes : List (String × List Waypoint)) : List Waypoint :=
  (routes.map (fun r => r.2)).flatten

/-- `addWaypoint` adds exactly one waypoint to the dict, as multisets. -/
theorem allWaypoints_addWaypoint (rs : List (String × List Waypoint)) (d : String)
    (wp : Waypoint) :
    List.Perm (allWaypoints (addWaypoint rs d wp)) (allWaypoints rs ++ [wp]) := by
  induction rs with
  | nil => simp [addWaypoint, allWaypoints]
  | cons r rest ih =>
    by_cases h : r.1 = d
    · simp only [addWaypoint, if_pos h, allWaypoints, List.map_cons, List.flatten_cons]
      rw [List.append_assoc, List.append_assoc]
      exact List.Perm.append_left r.2 (List.perm_append_comm)
    · simp only [addWaypoint, if_neg h, allWaypoints, List.map_cons, List.flatten_cons] at ih ⊢
      rw [List.append_assoc]
      exact List.Perm.append_left r.2 ih

/-- The grouping loop adds exactly the waypoints of its input points, as
multisets: nothing is lost, duplicated or invented. -/
theorem allWaypoints_foldl (pairs : List (ℕ × GeocodedPoint)) :
    ∀ (acc : List (String × List Waypoint)),
      List.Perm (allWaypoints (pairs.foldl routeStep acc))
        (allWaypoints acc ++ pairs.map (fun p => ⟨p.2.location, true⟩)) := by
  induction pairs with
  | nil => intro acc; simp
  | cons p rest ih =>
    intro acc
    rw [List.foldl_cons]
    refine (ih (routeStep acc p)).trans ?_
    have h1 := (allWaypoints_addWaypoint acc (driverId p.1)
      ⟨p.2.location, true⟩).append_right (rest.map (fun p => ⟨p.2.location, true⟩))
    refine (h1.trans ?_)
    rw [List.append_assoc, List.map_cons]
    exact List.Perm.refl _

/-- All the waypoints of `buildRoutes pairs`, as a multiset, are exactly one
waypoint per input point. -/
theorem allWaypoints_buildRoutes (pairs : List (ℕ × GeocodedPoint)) :
    List.Perm (allWaypoints (buildRoutes pairs))
      (pairs.map (fun p => ⟨p.2.location, true⟩)) := by
  have h := allWaypoints_foldl pairs []
  simpa [allWaypoints] using h

/-- The dict built by the grouping loop has at most `n` entries when every
assigned cluster id is below `n`. -/
theorem buildRoutes_length_le (pairs : List (ℕ × GeocodedPoint)) (n : ℕ)
    (hlab : ∀ p ∈ pairs, p.1 < n) :
    (buildRoutes pairs).length ≤ n := by
  have hlen : (buildRoutes pairs).length =
      ((buildRoutes pairs).map (fun r => r.1)).length := (List.length_map _ _).symm
  have hnd : ((buildRoutes pairs).map (fun r => r.1)).Nodup :=
    nodup_keys_foldl pairs [] (by simp)
  have hcard : ((buildRoutes pairs).map (fun r => r.1)).length =
      ((buildRoutes pairs).map (fun r => r.1)).toFinset.card :=
    (List.toFinset_card_of_nodup hnd).symm
  have hsub : ((buildRoutes pairs).map (fun r => r.1)).toFinset ⊆
      ((pairs.map (fun p => p.1)).toFinset).image driverId := by
    intro d hd
    rw [List.mem_toFinset] at hd
    have hm := (mem_keys_foldl pairs [] d).mp (by simpa [buildRoutes] using hd)
    rcases hm with h1 | h1
    · simp at h1
    · rw [Finset.mem_image]
      rcases List.mem_map.mp h1 with ⟨p, hp, hdp⟩
      exact ⟨p.1, by rw [List.mem_toFinset]; exact List.mem_map_of_mem _ hp, hdp⟩
  have h2 : ((buildRoutes pairs).map (fun r => r.1)).toFinset.card ≤
      ((pairs.map (fun p => p.1)).toFinset).card :=
    le_trans (Finset.card_le_card hsub) Finset.card_image_le
  have h3 : (pairs.map (fun p => p.1)).toFinset ⊆ Finset.range n := by
    intro c hc
    rw [List.mem_toFinset] at hc
    rcases List.mem_map.mp hc with ⟨p, hp, rfl⟩
    exact Finset.mem_range.mpr (hlab p hp)
  calc (buildRoutes pairs).length
      = ((buildRoutes pairs).map (fun r => r.1)).toFinset.card := by rw [hlen, hcard]
    _ ≤ ((pairs.map (fun p => p.1)).toFinset).card := h2
    _ ≤ (Finset.range n).card := Finset.card_le_card h3
    _ = n := Finset.card_range n

/-- The second components of a zip form a subsequence of the second list. -/
theorem map_snd_zip_sublist {α β : Type} :
    ∀ (l1 : List α) (l2 : List β), List.Sublist ((l1.zip l2).map Prod.snd) l2
  | [], _ => by simp
  | _ :: _, [] => by simp
  | a :: l1, b :: l2 => by
    simp only [List.zip_cons_cons, List.map_cons]
    exact (map_snd_zip_sublist l1 l2).cons₂ b

/-- Unfolding `cluster_addresses` when the validation passes. -/
theorem cluster_addresses_ok (kmeans : ℕ → List (ℚ × ℚ) → ℤ → List ℕ)
    (addresses : List String) (oracles : ℕ → ℕ → AttemptResult)
    (jitters : ℕ → ℕ → ℚ) (num_drivers : ℤ)
    (h : ¬ (((locationData addresses oracles jitters).length : ℤ) < num_drivers)) :
    cluster_addresses kmeans addresses oracles jitters num_drivers =
      .ok (buildRoutes
        ((kmeans 42 ((locationData addresses oracles jitters).map (fun loc => loc.coords))
            num_drivers).zip
          (locationData addresses oracles jitters))) := by
  unfold cluster_addresses
  rw [if_neg h]

/-- Unfolding `cluster_addresses` when the validation fails. -/
theorem cluster_addresses_error (kmeans : ℕ → List (ℚ × ℚ) → ℤ → List ℕ)
    (addresses : List String) (oracles : ℕ → ℕ → AttemptResult)
    (jitters : ℕ → ℕ → ℚ) (num_drivers : ℤ)
    (h : ((locationData addresses oracles jitters).length : ℤ) < num_drivers) :
    cluster_addresses kmeans addresses oracles jitters num_drivers =
      .error ("Not enough valid addresses (" ++
        toString (locationData addresses oracles jitters).length ++
        ") for " ++ toString num_drivers ++ " drivers") := by
  unfold cluster_addresses
  rw [if_pos h]

/-!
Concrete fixtures used by the closed witness theorems.
-/

/-- A clusterer that puts every point in cluster 0. -/
def kmTest : ℕ → List (ℚ × ℚ) → ℤ → List ℕ := fun _ coords _ => coords.map (fun _ => 0)

/-- Oracles making every geocode attempt succeed at (1, 2). -/
def oraclesTest : ℕ → ℕ → AttemptResult := fun _ _ => .success 1 2

/-- Oracles whose first attempt times out, then succeed at (1, 2). -/
def oraclesTest2 : ℕ → ℕ → AttemptResult := fun _ i =>
  if i = 0 then .timeout else .success 1 2

/-- Constant jitter 1/2. -/
def jittersTest : ℕ → ℕ → ℚ := fun _ _ => 1 / 2

/-- A two-address input list. -/
def addrsTest : List String := ["A", "B"]

/-- Single-address oracle: always times out. -/
def oracleAllTimeout : ℕ → AttemptResult := fun _ => .timeout

/-- Single-address oracle: timeout on attempt 0, then success at (1, 2). -/
def oracleTimeoutThenSuccess : ℕ → AttemptResult := fun i =>
  if i = 0 then .timeout else .success 1 2

/-- Single-address oracle: falsy result on attempt 0, then success at (1, 2). -/
def oracleNotFoundThenSuccess : ℕ → AttemptResult := fun i =>
  if i = 0 then .notFound else .success 1 2

/-- Single-address oracle: every attempt raises a non-timeout exception. -/
def oracleAllError : ℕ → AttemptResult := fun _ => .otherError

/-- Single-address oracle: every attempt returns a falsy location. -/
def oracleAllNotFound : ℕ → AttemptResult := fun _ => .notFound

/-- Single-address jitter 1/2. -/
def jitterHalf : ℕ → ℚ := fun _ => 1 / 2

/-!
Claim theorems.
-/

/-- C2: if fewer addresses geocode successfully than `num_drivers`, then for
every clusterer (so before any clustering can contribute) `cluster_addresses`
fails with the validation error carrying the actual count and the requested
count, and the pipeline writes no output file. -/
theorem C2_insufficient_addresses (addresses : List String)
    (oracles : ℕ → ℕ → AttemptResult) (jitters : ℕ → ℕ → ℚ) (num_drivers : ℤ)
    (h : ((locationData addresses oracles jitters).length : ℤ) < num_drivers) :
    ∀ kmeans,
      cluster_addresses kmeans addresses oracles jitters num_drivers =
        .error ("Not enough valid addresses (" ++
          toString (locationData addresses oracles jitters).length ++
          ") for " ++ toString num_drivers ++ " drivers") ∧
      main_writes_file kmeans addresses oracles jitters num_drivers = none := by
  intro kmeans
  refine ⟨cluster_addresses_error _ _ _ _ _ h, ?_⟩
  unfold main_writes_file
  rw [cluster_addresses_error _ _ _ _ _ h]

/-- Witness for C2 at a concrete input: 2 successes, 5 drivers requested. -/
theorem C2_witness :
    (((locationData addrsTest oraclesTest jittersTest).length : ℤ) < 5) ∧
    (cluster_addresses kmTest addrsTest oraclesTest jittersTest 5 =
        .error ("Not enough valid addresses (" ++
          toString (locationData addrsTest oraclesTest jittersTest).length ++
          ") for " ++ toString (5 : ℤ) ++ " drivers") ∧
      main_writes_file kmTest addrsTest oraclesTest jittersTest 5 = none) :=
  ⟨by decide, C2_insufficient_addresses addrsTest oraclesTest jittersTest 5 (by decide) kmTest⟩

/-- C3 (corrected), counterexample to the original claim: a not-found result
on the first attempt does not make `geocode_address` return absent after that
single attempt — a second attempt is made, and here it succeeds. -/
theorem C3_counterexample :
    (geocode_address "A" oracleNotFoundThenSuccess jitterHalf).attempts = 2 ∧
    (geocode_address "A" oracleNotFoundThenSuccess jitterHalf).result =
      some ⟨"A", true, (1, 2)⟩ := by
  decide

/-- C3 as amended: a non-timeout exception at any attempt makes the call
return absent immediately, after that single attempt, with no exception
propagating; a not-found (falsy) result instead lets the loop move on to the
next attempt, and if every attempt is not-found the call returns absent after
all 3 attempts. -/
theorem C3_nontimeout_exception_immediate (address : String)
    (oracle : ℕ → AttemptResult) (jitter : ℕ → ℚ) :
    (∀ (i fuel : ℕ), oracle i = .otherError →
      geocodeFrom address oracle jitter i (fuel + 1) = ⟨none, 1, []⟩) ∧
    ((∀ i, oracle i = .notFound) →
      geocode_address address oracle jitter = ⟨none, 3, []⟩) := by
  constructor
  · intro i fuel h
    simp [geocodeFrom, h]
  · intro h
    unfold geocode_address
    rw [geocodeFrom_allNotFound address oracle jitter h]
    rfl

/-- Witness for C3's amended statement at concrete inputs. -/
theorem C3_witness :
    geocodeFrom "A" oracleAllError jitterHalf 0 3 = ⟨none, 1, []⟩ ∧
    geocode_address "A" oracleAllNotFound jitterHalf = ⟨none, 3, []⟩ :=
  ⟨(C3_nontimeout_exception_immediate "A" oracleAllError jitterHalf).1 0 2 rfl,
   (C3_nontimeout_exception_immediate "A" oracleAllNotFound jitterHalf).2 (fun _ => rfl)⟩

/-- C6: three consecutive timeouts give exactly 3 attempts, an absent result,
and backoff waits `2 ^ 0 + jitter 0` and `2 ^ 1 + jitter 1` between
consecutive attempts; success on the 2nd attempt gives exactly 2 attempts
(with the single backoff wait when the first attempt timed out, and no backoff
wait when it was a falsy result). -/
theorem C6_backoff (address : String) (oracle : ℕ → AttemptResult) (jitter : ℕ → ℚ) :
    ((∀ i, oracle i = .timeout) →
      geocode_address address oracle jitter =
        ⟨none, 3, [2 ^ 0 + jitter 0, 2 ^ 1 + jitter 1]⟩) ∧
    (∀ lat lon : ℚ, oracle 1 = .success lat lon →
      ((oracle 0 = .timeout →
        geocode_address address oracle jitter =
          ⟨some ⟨address, true, (lat, lon)⟩, 2, [2 ^ 0 + jitter 0]⟩) ∧
       (oracle 0 = .notFound →
        geocode_address address oracle jitter =
          ⟨some ⟨address, true, (lat, lon)⟩, 2, []⟩))) := by
  refine ⟨fun h => ?_, fun lat lon h1 => ⟨fun h0 => ?_, fun h0 => ?_⟩⟩
  · simp [geocode_address, geocodeFrom, retries, h 0, h 1, h 2]
  · simp [geocode_address, geocodeFrom, retries, h0, h1]
  · simp [geocode_address, geocodeFrom, retries, h0, h1]

/-- Witness for C6 at concrete inputs. -/
theorem C6_witness :
    geocode_address "A" oracleAllTimeout jitterHalf =
      ⟨none, 3, [2 ^ 0 + jitterHalf 0, 2 ^ 1 + jitterHalf 1]⟩ ∧
    geocode_address "A" oracleTimeoutThenSuccess jitterHalf =
      ⟨some ⟨"A", true, (1, 2)⟩, 2, [2 ^ 0 + jitterHalf 0]⟩ ∧
    geocode_address "A" oracleNotFoundThenSuccess jitterHalf =
      ⟨some ⟨"A", true, (1, 2)⟩, 2, []⟩ :=
  ⟨(C6_backoff "A" oracleAllTimeout jitterHalf).1 (fun _ => rfl),
   ((C6_backoff "A" oracleTimeoutThenSuccess jitterHalf).2 1 2 rfl).1 rfl,
   ((C6_backoff "A" oracleNotFoundThenSuccess jitterHalf).2 1 2 rfl).2 rfl⟩

/-- C7: with the seed fixed at 42 by the source, clustering is deterministic:
two runs whose geocoding produced the same points, with the same
`num_drivers`, give identical outputs, whatever the clustering family does. -/
theorem C7_deterministic (kmeans : ℕ → List (ℚ × ℚ) → ℤ → List ℕ)
    (a1 : List String) (o1 : ℕ → ℕ → AttemptResult) (j1 : ℕ → ℕ → ℚ)
    (a2 : List String) (o2 : ℕ → ℕ → AttemptResult) (j2 : ℕ → ℕ → ℚ)
    (num_drivers : ℤ)
    (h : locationData a1 o1 j1 = locationData a2 o2 j2) :
    cluster_addresses kmeans a1 o1 j1 num_drivers =
      cluster_addresses kmeans a2 o2 j2 num_drivers := by
  unfold cluster_addresses
  rw [h]

/-- Witness for C7: one run geocodes directly, the other retries a timeout
first, but the geocoded points coincide, so the outputs coincide. -/
theorem C7_witness :
    locationData addrsTest oraclesTest jittersTest =
      locationData addrsTest oraclesTest2 jittersTest ∧
    cluster_addresses kmTest addrsTest oraclesTest jittersTest 2 =
      cluster_addresses kmTest addrsTest oraclesTest2 jittersTest 2 :=
  ⟨by decide,
   C7_deterministic kmTest addrsTest oraclesTest jittersTest
     addrsTest oraclesTest2 jittersTest 2 (by decide)⟩

/-- C9: a non-positive `num_drivers` can never trigger the insufficient-
address validation (the success count is never below a non-positive bound),
so the unvalidated non-positive count reaches the clustering call. -/
theorem C9_nonpositive_drivers (kmeans : ℕ → List (ℚ × ℚ) → ℤ → List ℕ)
    (addresses : List String) (oracles : ℕ → ℕ → AttemptResult)
    (jitters : ℕ → ℕ → ℚ) (num_drivers : ℤ) (h : num_drivers ≤ 0) :
    ¬ (((locationData addresses oracles jitters).length : ℤ) < num_drivers) ∧
    cluster_addresses kmeans addresses oracles jitters num_drivers =
      .ok (buildRoutes
        ((kmeans 42 ((locationData addresses oracles jitters).map (fun loc => loc.coords))
            num_drivers).zip
          (locationData addresses oracles jitters))) := by
  have hnot : ¬ (((locationData addresses oracles jitters).length : ℤ) < num_drivers) := by
    have h0 : (0 : ℤ) ≤ ((locationData addresses oracles jitters).length : ℤ) :=
      Int.ofNat_nonneg _
    omega
  exact ⟨hnot, cluster_addresses_ok _ _ _ _ _ hnot⟩

/-- Witness for C9 with `num_drivers = -1`. -/
theorem C9_witness :
    ((-1 : ℤ) ≤ 0) ∧
    (¬ (((locationData addrsTest oraclesTest jittersTest).length : ℤ) < (-1 : ℤ)) ∧
    cluster_addresses kmTest addrsTest oraclesTest jittersTest (-1) =
      .ok (buildRoutes
        ((kmTest 42 ((locationData addrsTest oraclesTest jittersTest).map (fun loc => loc.coords))
            (-1)).zip
          (locationData addrsTest oraclesTest jittersTest)))) :=
  ⟨by decide, C9_nonpositive_drivers kmTest addrsTest oraclesTest jittersTest (-1) (by decide)⟩

/-- With distinct keys, looking up the key of a member entry returns exactly
that entry's list. -/
theorem routeLookup_of_mem (rs : List (String × List Waypoint))
    (r : String × List Waypoint) (hnd : (rs.map (fun x => x.1)).Nodup)
    (hr : r ∈ rs) : routeLookup rs r.1 = some r.2 := by
  induction rs with
  | nil => simp at hr
  | cons q rest ih =>
    simp only [List.map_cons, List.nodup_cons] at hnd
    rcases List.mem_cons.mp hr with h1 | h1
    · rw [h1]
      simp [routeLookup]
    · have hq : q.1 ≠ r.1 := by
        intro he
        exact hnd.1 (he ▸ List.mem_map_of_mem (fun x => x.1) h1)
      have hstep : routeLookup (q :: rest) r.1 = routeLookup rest r.1 := by
        simp [routeLookup, show (q.1 == r.1) = false from beq_eq_false_iff_ne.mpr hq]
      rw [hstep]
      exact ih hnd.2 h1

/-- Every entry of the dict built by the grouping loop holds exactly the
in-order waypoints of the points assigned to its key. -/
theorem mem_buildRoutes_eq_wpsOf (pairs : List (ℕ × GeocodedPoint))
    (r : String × List Waypoint) (hr : r ∈ buildRoutes pairs) :
    r.2 = wpsOf r.1 pairs := by
  have hnd : ((buildRoutes pairs).map (fun x => x.1)).Nodup :=
    nodup_keys_foldl pairs [] (by simp)
  have hl := routeLookup_of_mem (buildRoutes pairs) r hnd hr
  rw [routeLookup_buildRoutes] at hl
  by_cases he : wpsOf r.1 pairs = []
  · rw [if_pos he] at hl
    exact absurd hl (by simp)
  · rw [if_neg he] at hl
    exact (Option.some.injEq _ _ ▸ hl).symm

/-- Inversion: a normal return of `cluster_addresses` is the grouping of the
clusterer's labels zipped with the geocoded points. -/
theorem cluster_addresses_ok_inv (kmeans : ℕ → List (ℚ × ℚ) → ℤ → List ℕ)
    (addresses : List String) (oracles : ℕ → ℕ → AttemptResult)
    (jitters : ℕ → ℕ → ℚ) (num_drivers : ℤ)
    (routes : List (String × List Waypoint))
    (h : cluster_addresses kmeans addresses oracles jitters num_drivers = .ok routes) :
    routes = buildRoutes
      ((kmeans 42 ((locationData addresses oracles jitters).map (fun loc => loc.coords))
          num_drivers).zip
        (locationData addresses oracles jitters)) := by
  by_cases hc : ((locationData addresses oracles jitters).length : ℤ) < num_drivers
  · rw [cluster_addresses_error _ _ _ _ _ hc] at h
    exact absurd h (by simp)
  · rw [cluster_addresses_ok _ _ _ _ _ hc] at h
    injection h with h'
    exact h'.symm

/-- C1: for `num_drivers` between 1 and the geocoded count, with the
clusterer returning one label per point, all labels below `num_drivers`,
clustering succeeds with at most `num_drivers` groups, all groups non-empty,
and the waypoints across all groups are, as a multiset, exactly one waypoint
per geocoded point. -/
theorem C1_partition (kmeans : ℕ → List (ℚ × ℚ) → ℤ → List ℕ)
    (addresses : List String) (oracles : ℕ → ℕ → AttemptResult)
    (jitters : ℕ → ℕ → ℚ) (num_drivers : ℤ)
    (h1 : 1 ≤ num_drivers)
    (h2 : num_drivers ≤ ((locationData addresses oracles jitters).length : ℤ))
    (hlen : (kmeans 42 ((locationData addresses oracles jitters).map (fun loc => loc.coords))
        num_drivers).length = (locationData addresses oracles jitters).length)
    (hlab : ∀ c ∈ kmeans 42 ((locationData addresses oracles jitters).map (fun loc => loc.coords))
        num_drivers, (c : ℤ) < num_drivers) :
    ∃ routes,
      cluster_addresses kmeans addresses oracles jitters num_drivers = .ok routes ∧
      (routes.length : ℤ) ≤ num_drivers ∧
      (∀ r ∈ routes, r.2 ≠ []) ∧
      List.Perm (allWaypoints routes)
        ((locationData addresses oracles jitters).map (fun p => ⟨p.location, true⟩)) := by
  have hnot : ¬ (((locationData addresses oracles jitters).length : ℤ) < num_drivers) := by
    omega
  refine ⟨_, cluster_addresses_ok _ _ _ _ _ hnot, ?_, ?_, ?_⟩
  · have hb := buildRoutes_length_le
      ((kmeans 42 ((locationData addresses oracles jitters).map (fun loc => loc.coords))
          num_drivers).zip
        (locationData addresses oracles jitters)) num_drivers.toNat ?_
    · omega
    · intro p hp
      have hc := hlab p.1 (List.of_mem_zip hp).1
      omega
  · exact nonempty_foldl _ [] (by simp)
  · refine (allWaypoints_buildRoutes _).trans ?_
    have hsnd : ((kmeans 42 ((locationData addresses oracles jitters).map (fun loc => loc.coords))
        num_drivers).zip
          (locationData addresses oracles jitters)).map Prod.snd =
        locationData addresses oracles jitters :=
      List.map_snd_zip _ _ (le_of_eq hlen.symm)
    have hmm : ((kmeans 42 ((locationData addresses oracles jitters).map (fun loc => loc.coords))
        num_drivers).zip
          (locationData addresses oracles jitters)).map
            (fun p => (⟨p.2.location, true⟩ : Waypoint)) =
        (((kmeans 42 ((locationData addresses oracles jitters).map (fun loc => loc.coords))
        num_drivers).zip
          (locationData addresses oracles jitters)).map Prod.snd).map
            (fun p => (⟨p.location, true⟩ : Waypoint)) := by
      rw [List.map_map]
      rfl
    rw [hmm, hsnd]

/-- Witness for C1: 2 addresses, both geocoding to (1, 2), 2 drivers. -/
theorem C1_witness :
    ((1 : ℤ) ≤ 2 ∧
      (2 : ℤ) ≤ ((locationData addrsTest oraclesTest jittersTest).length : ℤ) ∧
      (kmTest 42 ((locationData addrsTest oraclesTest jittersTest).map (fun loc => loc.coords))
          2).length = (locationData addrsTest oraclesTest jittersTest).length ∧
      (∀ c ∈ kmTest 42 ((locationData addrsTest oraclesTest jittersTest).map
          (fun loc => loc.coords)) 2, (c : ℤ) < 2)) ∧
    (∃ routes,
      cluster_addresses kmTest addrsTest oraclesTest jittersTest 2 = .ok routes ∧
      (routes.length : ℤ) ≤ 2 ∧
      (∀ r ∈ routes, r.2 ≠ []) ∧
      List.Perm (allWaypoints routes)
        ((locationData addrsTest oraclesTest jittersTest).map (fun p => ⟨p.location, true⟩))) :=
  ⟨⟨by decide, by decide, by decide, by decide⟩,
   C1_partition kmTest addrsTest oraclesTest jittersTest 2
     (by decide) (by decide) (by decide) (by decide)⟩

/-- C4: in every driver's waypoint list produced by `cluster_addresses`, the
locations form a subsequence of the input address list — waypoints keep the
relative order their source addresses had in the input, never re-sorted. -/
theorem C4_stable_order (kmeans : ℕ → List (ℚ × ℚ) → ℤ → List ℕ)
    (addresses : List String) (oracles : ℕ → ℕ → AttemptResult)
    (jitters : ℕ → ℕ → ℚ) (num_drivers : ℤ)
    (routes : List (String × List Waypoint))
    (h : cluster_addresses kmeans addresses oracles jitters num_drivers = .ok routes) :
    ∀ r ∈ routes, List.Sublist (r.2.map (fun w => w.location)) addresses := by
  have hb := cluster_addresses_ok_inv kmeans addresses oracles jitters num_drivers routes h
  subst hb
  intro r hr
  have hws := mem_buildRoutes_eq_wpsOf _ r hr
  rw [hws]
  unfold wpsOf
  rw [List.map_map]
  have t1 : List.Sublist
      ((List.filter (fun p => driverId p.1 == r.1)
        ((kmeans 42 ((locationData addresses oracles jitters).map (fun loc => loc.coords))
            num_drivers).zip
          (locationData addresses oracles jitters))).map (fun p => p.2.location))
      (((kmeans 42 ((locationData addresses oracles jitters).map (fun loc => loc.coords))
            num_drivers).zip
          (locationData addresses oracles jitters)).map (fun p => p.2.location)) :=
    (List.filter_sublist _).map _
  have t2 : List.Sublist
      ((((kmeans 42 ((locationData addresses oracles jitters).map (fun loc => loc.coords))
            num_drivers).zip
          (locationData addresses oracles jitters)).map Prod.snd).map (fun p => p.location))
      ((locationData addresses oracles jitters).map (fun p => p.location)) :=
    (map_snd_zip_sublist _ _).map _
  have t3 := locationDataFrom_map_location_sublist oracles jitters addresses 0
  have t2' : List.Sublist
      ((((kmeans 42 ((locationData addresses oracles jitters).map (fun loc => loc.coords))
            num_drivers).zip
          (locationData addresses oracles jitters)).map (fun p => p.2.location)))
      ((locationData addresses oracles jitters).map (fun p => p.location)) := by
    rw [show (((kmeans 42 ((locationData addresses oracles jitters).map (fun loc => loc.coords))
            num_drivers).zip
          (locationData addresses oracles jitters)).map (fun p => p.2.location)) =
        ((((kmeans 42 ((locationData addresses oracles jitters).map (fun loc => loc.coords))
            num_drivers).zip
          (locationData addresses oracles jitters)).map Prod.snd).map (fun p => p.location))
      from by rw [List.map_map]; rfl]
    exact t2
  exact (t1.trans t2').trans t3

/-- Witness for C4 at a concrete run: both addresses land in driver_1 in
input order. -/
theorem C4_witness :
    cluster_addresses kmTest addrsTest oraclesTest jittersTest 2 =
      .ok [("driver_1", [⟨"A", true⟩, ⟨"B", true⟩])] ∧
    ∀ r ∈ [(("driver_1" : String), [(⟨"A", true⟩ : Waypoint), ⟨"B", true⟩])],
      List.Sublist (r.2.map (fun w => w.location)) addrsTest :=
  ⟨rfl, C4_stable_order kmTest addrsTest oraclesTest jittersTest 2
    [("driver_1", [⟨"A", true⟩, ⟨"B", true⟩])] rfl⟩

/-- C5: cluster id `c` is rendered as `driver_<c+1>`, and that driver id
appears as a key of the output exactly when some point was assigned label `c`
(empty clusters produce no entry). -/
theorem C5_driver_key_iff (kmeans : ℕ → List (ℚ × ℚ) → ℤ → List ℕ)
    (addresses : List String) (oracles : ℕ → ℕ → AttemptResult)
    (jitters : ℕ → ℕ → ℚ) (num_drivers : ℤ)
    (routes : List (String × List Waypoint))
    (hlen : (kmeans 42 ((locationData addresses oracles jitters).map (fun loc => loc.coords))
        num_drivers).length = (locationData addresses oracles jitters).length)
    (h : cluster_addresses kmeans addresses oracles jitters num_drivers = .ok routes) :
    ∀ c : ℕ,
      driverId c = "driver_" ++ toString (c + 1) ∧
      (driverId c ∈ routes.map (fun r => r.1) ↔
        c ∈ kmeans 42 ((locationData addresses oracles jitters).map (fun loc => loc.coords))
          num_drivers) := by
  have hb := cluster_addresses_ok_inv kmeans addresses oracles jitters num_drivers routes h
  subst hb
  intro c
  refine ⟨rfl, ?_⟩
  constructor
  · intro hmem
    rcases (mem_keys_foldl _ [] _).mp hmem with h1 | h1
    · simp at h1
    · rcases List.mem_map.mp h1 with ⟨p, hp, hdp⟩
      have hpc : p.1 = c := driverId_injective hdp
      have hfst : c ∈ ((kmeans 42 ((locationData addresses oracles jitters).map
          (fun loc => loc.coords)) num_drivers).zip
            (locationData addresses oracles jitters)).map Prod.fst :=
        hpc ▸ List.mem_map_of_mem Prod.fst hp
      rwa [List.map_fst_zip _ _ (le_of_eq hlen)] at hfst
  · intro hc
    apply (mem_keys_foldl _ [] _).mpr
    right
    have hfst : c ∈ ((kmeans 42 ((locationData addresses oracles jitters).map
        (fun loc => loc.coords)) num_drivers).zip
          (locationData addresses oracles jitters)).map Prod.fst := by
      rwa [List.map_fst_zip _ _ (le_of_eq hlen)]
    rcases List.mem_map.mp hfst with ⟨p, hp, hpc⟩
    exact List.mem_map.mpr ⟨p, hp, by rw [hpc]⟩

/-- Witness for C5 at a concrete run: driver_1 is a key (cluster 0 is
assigned) and the rendering matches. -/
theorem C5_witness :
    ((kmTest 42 ((locationData addrsTest oraclesTest jittersTest).map (fun loc => loc.coords))
        2).length = (locationData addrsTest oraclesTest jittersTest).length) ∧
    (driverId 0 = "driver_" ++ toString (0 + 1) ∧
      (driverId 0 ∈ [(("driver_1" : String), [(⟨"A", true⟩ : Waypoint), ⟨"B", true⟩])].map
          (fun r => r.1) ↔
        0 ∈ kmTest 42 ((locationData addrsTest oraclesTest jittersTest).map
          (fun loc => loc.coords)) 2)) :=
  ⟨by decide,
   C5_driver_key_iff kmTest addrsTest oraclesTest jittersTest 2
     [("driver_1", [⟨"A", true⟩, ⟨"B", true⟩])] (by decide) rfl 0⟩

/-- C8: every point returned by `geocode_address` has `stopover = True`, and
every waypoint in every driver's list produced by `cluster_addresses` has
`stopover = True`. -/
theorem C8_stopover_always :
    (∀ (address : String) (oracle : ℕ → AttemptResult) (jitter : ℕ → ℚ)
        (p : GeocodedPoint),
      (geocode_address address oracle jitter).result = some p → p.stopover = true) ∧
    (∀ (kmeans : ℕ → List (ℚ × ℚ) → ℤ → List ℕ) (addresses : List String)
        (oracles : ℕ → ℕ → AttemptResult) (jitters : ℕ → ℕ → ℚ)
        (num_drivers : ℤ) (routes : List (String × List Waypoint)),
      cluster_addresses kmeans addresses oracles jitters num_drivers = .ok routes →
      ∀ r ∈ routes, ∀ wp ∈ r.2, wp.stopover = true) := by
  constructor
  · intro address oracle jitter p h
    exact (geocodeFrom_result_some address oracle jitter retries 0 p h).2
  · intro kmeans addresses oracles jitters num_drivers routes h r hr wp hwp
    have hb := cluster_addresses_ok_inv kmeans addresses oracles jitters num_drivers routes h
    subst hb
    have hmem : wp ∈ allWaypoints (buildRoutes
        ((kmeans 42 ((locationData addresses oracles jitters).map (fun loc => loc.coords))
            num_drivers).zip
          (locationData addresses oracles jitters))) :=
      List.mem_flatten_of_mem (List.mem_map_of_mem (fun r => r.2) hr) hwp
    have hmem2 := (allWaypoints_buildRoutes _).mem_iff.mp hmem
    rcases List.mem_map.mp hmem2 with ⟨q, _, he⟩
    rw [← he]

/-- Witness for C8: the concrete geocoded point and a concrete waypoint of a
concrete run both carry `stopover = true`. -/
theorem C8_witness :
    (⟨"A", true, (1, 2)⟩ : GeocodedPoint).stopover = true ∧
    (⟨"A", true⟩ : Waypoint).stopover = true :=
  ⟨C8_stopover_always.1 "A" oracleTimeoutThenSuccess jitterHalf ⟨"A", true, (1, 2)⟩ (by decide),
   C8_stopover_always.2 kmTest addrsTest oraclesTest jittersTest 2
     [("driver_1", [⟨"A", true⟩, ⟨"B", true⟩])] rfl
     ("driver_1", [⟨"A", true⟩, ⟨"B", true⟩]) (by decide) ⟨"A", true⟩ (by decide)⟩

/-- C10: the total number of waypoints across all drivers is the number of
geocoded points, which is the number of (position, address) occurrences whose
own geocode call succeeded — duplicates counted with multiplicity. -/
theorem C10_waypoint_count (kmeans : ℕ → List (ℚ × ℚ) → ℤ → List ℕ)
    (addresses : List String) (oracles : ℕ → ℕ → AttemptResult)
    (jitters : ℕ → ℕ → ℚ) (num_drivers : ℤ)
    (routes : List (String × List Waypoint))
    (hlen : (kmeans 42 ((locationData addresses oracles jitters).map (fun loc => loc.coords))
        num_drivers).length = (locationData addresses oracles jitters).length)
    (h : cluster_addresses kmeans addresses oracles jitters num_drivers = .ok routes) :
    (allWaypoints routes).length = (locationData addresses oracles jitters).length ∧
    (locationData addresses oracles jitters).length =
      (List.enumFrom 0 addresses).countP
        (fun q => ((geocode_address q.2 (oracles q.1) (jitters q.1)).result).isSome) := by
  refine ⟨?_, locationDataFrom_length oracles jitters addresses 0⟩
  have hb := cluster_addresses_ok_inv kmeans addresses oracles jitters num_drivers routes h
  subst hb
  rw [(allWaypoints_buildRoutes _).length_eq, List.length_map, List.length_zip, hlen,
    Nat.min_self]

/-- Witness for C10 at a concrete run: 2 waypoints for 2 successes. -/
theorem C10_witness :
    ((kmTest 42 ((locationData addrsTest oraclesTest jittersTest).map (fun loc => loc.coords))
        2).length = (locationData addrsTest oraclesTest jittersTest).length) ∧
    ((allWaypoints [(("driver_1" : String), [(⟨"A", true⟩ : Waypoint), ⟨"B", true⟩])]).length =
        (locationData addrsTest oraclesTest jittersTest).length ∧
      (locationData addrsTest oraclesTest jittersTest).length =
        (List.enumFrom 0 addrsTest).countP
          (fun q =>
            ((geocode_address q.2 (oraclesTest q.1) (jittersTest q.1)).result).isSome)) :=
  ⟨by decide,
   C10_waypoint_count kmTest addrsTest oraclesTest jittersTest 2
     [("driver_1", [⟨"A", true⟩, ⟨"B", true⟩])] (by decide) rfl⟩
